import Mathlib

/-!
Verification of `deploy_driver.py` (Hubitat Nuvo Essentia driver deployment
script) against its natural-language specification.

The script is a sequential Selenium browser-automation recipe.  We give a
shallow embedding: the pure string-processing steps (argument
classification, error-keyword scanning, save-button selection, identifier
extraction from an href) are translated directly as Lean functions
mirroring the Python source; the browser-dependent steps are modelled as
functions of an explicit environment that records what the page / browser
would answer at each interaction point, together with a trace of browser
session open/close events, so that the control flow (including the
`try/finally` around the main sequence and the absence of a `finally` in
the auto-discovery block) is reproduced faithfully.
-/

namespace DeployDriver

/-! ## Python string primitives

The script uses Python `in` (substring test), `str.lower`, `str.strip`,
`str.split`, and `str.isdigit`.  We model Python strings by Lean `String`
(whose `data` field is the list of characters) and translate each
operation. -/

/-- Substring occurrence test on character lists: `listContains sub s` is
true iff `sub` occurs contiguously inside `s` (Python `sub in s`). -/
def listContains (sub : List Char) : List Char → Bool
  | [] => sub.isEmpty
  | d :: s => sub.isPrefixOf (d :: s) || listContains sub s

/-- Python `sub in s` for strings. -/
def pyIn (sub s : String) : Bool := listContains sub.data s.data

/-- Python `s.lower()` (ASCII case folding, as used by the script). -/
def pyLower (s : String) : String := ⟨s.data.map Char.toLower⟩

/-- Python `s.strip()`: remove leading and trailing whitespace. -/
def pyStrip (s : String) : String :=
  ⟨((s.data.dropWhile Char.isWhitespace).reverse.dropWhile Char.isWhitespace).reverse⟩

/-- Python `s.isdigit()`: non-empty and all characters are digits. -/
def pyIsdigit (s : String) : Bool := !s.data.isEmpty && s.data.all Char.isDigit

/-- Core of Python `s.split(sep)` for a non-empty separator `c :: cs`:
scan left to right, breaking at each non-overlapping occurrence of the
separator.  The `fuel` argument makes the recursion structural (the scan
consumes at least one character per step, so any `fuel ≥ s.length` gives
the same, fuel-independent answer — see `pySplitCore_fuel_irrel`). -/
def pySplitCore (c : Char) (cs : List Char) : Nat → List Char → List (List Char)
  | _, [] => [[]]
  | 0, s => [s]
  | fuel + 1, d :: s =>
    if (c :: cs).isPrefixOf (d :: s) then
      [] :: pySplitCore c cs fuel (List.drop cs.length s)
    else
      let r := pySplitCore c cs fuel s
      (d :: r.headD []) :: r.tail

/-- The splitter applied with exactly enough fuel. -/
def pySplitL (c : Char) (cs : List Char) (s : List Char) : List (List Char) :=
  pySplitCore c cs s.length s

/-- Python `s.split(sep)` (the script only ever splits on non-empty
separators; an empty separator is mapped to the identity split). -/
def pySplit (s sep : String) : List String :=
  match sep.data with
  | [] => [s]
  | c :: cs => (pySplitL c cs s.data).map fun l => ⟨l⟩

/-! ## Command-line argument classification (lines 229-239)

`sys.argv[1]` and `sys.argv[2]` are each classified independently:
an all-digit token becomes the driver id, otherwise a token containing
`"."` becomes the hub ip, otherwise the token is ignored.  The state is
the pair `(driver_id, hub_ip)`. -/

/-- Classification of one command-line token (the body of each of the two
`if len(sys.argv) > k` blocks). -/
def classifyArg (tok : String) (st : String × String) : String × String :=
  if pyIsdigit tok then (tok, st.2)
  else if pyIn "." tok then (st.1, tok)
  else st

/-- The whole argument-parsing block: at most the first two user-supplied
arguments (`sys.argv[1]`, `sys.argv[2]`) are consulted, in order. -/
def parseArgs (args : List String) (st : String × String) : String × String :=
  match args with
  | [] => st
  | [a] => classifyArg a st
  | a :: b :: _ => classifyArg b (classifyArg a st)

/-! ## Save-control locator (lines 129-152)

Five locator expressions are tried in order; each yields a list of
candidate elements from the page.  A candidate is accepted iff it is
displayed, enabled, and its lower-cased label contains neither
`"delete"` nor `"cancel"`; the first acceptance across the whole ordered
list wins. -/

/-- The five save-button locator expressions of the `selectors` list,
in source order (the literal XPath strings are opaque to the model; the
page environment maps each to its match list). -/
inductive Selector
  | saveText          -- button with descendant text matching save
  | hubitatGreen      -- button with class bg-hubitat-primary-green
  | btnPrimary        -- button with class btn-primary (generic primary button)
  | submitType        -- button of type submit
  | inputSave         -- input with value Save
deriving DecidableEq, Repr

/-- The ordered selector list. -/
def selectors : List Selector :=
  [.saveText, .hubitatGreen, .btnPrimary, .submitType, .inputSave]

/-- A candidate page element as the script observes it: `is_displayed()`,
`is_enabled()`, and its visible `text`. -/
structure Btn where
  displayed : Bool
  enabled : Bool
  text : String
deriving DecidableEq, Repr

/-- The label test of lines 145-147: the lower-cased text contains a
negative keyword. -/
def negativeLabel (b : Btn) : Bool :=
  pyIn "delete" (pyLower b.text) || pyIn "cancel" (pyLower b.text)

/-- A candidate passes the inner loop's checks (lines 143-148). -/
def acceptBtn (b : Btn) : Bool :=
  b.displayed && b.enabled && !(negativeLabel b)

/-- The double loop of lines 139-151: per expression, first accepted
candidate; stop at the first acceptance across the whole list. -/
def findSaveButton : List (List Btn) → Option Btn
  | [] => none
  | grp :: rest =>
    match grp.find? acceptBtn with
    | some b => some b
    | none => findSaveButton rest

/-! ## Error verification (lines 184-215)

Diagnostics are collected from visible warning banners and from a
keyword scan of the lower-cased body text; the run is reported
successful iff the collected list is empty. -/

/-- A warning-banner element (`.alert-warning`): visibility and text. -/
structure Banner where
  displayed : Bool
  text : String
deriving DecidableEq, Repr

/-- Banner diagnostics (lines 189-192): the text of every displayed
banner, with the `"Banner: "` prefix of the f-string. -/
def bannerDiags (banners : List Banner) : List String :=
  (banners.filter (·.displayed)).map fun b => "Banner: " ++ b.text

/-- The fixed keyword list of line 198. -/
def keywords : List String :=
  ["expecting", "syntax error", "unexpected token", "compilation error"]

/-- The body-text scan of lines 197-205: for each keyword, if the
keyword and the keyword followed by `" @"` both occur anywhere in the
lower-cased body text, every line of that text containing the keyword is
appended, stripped. -/
def bodyScan (bodyText : String) : List String :=
  let bt := pyLower bodyText
  keywords.flatMap fun k =>
    if pyIn k bt && pyIn (k ++ " @") bt then
      ((pySplit bt "\n").filter fun line => pyIn k line).map pyStrip
    else []

/-- All collected diagnostics (`errors_found`), banners first as in the
source. -/
def errorsFound (banners : List Banner) (bodyText : String) : List String :=
  bannerDiags banners ++ bodyScan bodyText

/-- The final verdict of lines 208-215: success iff no diagnostics. -/
def verifyResult (banners : List Banner) (bodyText : String) : Bool :=
  (errorsFound banners bodyText).isEmpty

/-! ## Identifier extraction from a discovered link (line 279)

`href.split("editor/")[1].split("/")[0].split("?")[0]`, evaluated only
under the guard `"editor/" in href`, which makes index 1 in-range. -/

/-- The extraction expression of line 279 (out-of-range indices, which
the guard excludes, default to the empty string). -/
def extractDriverId (href : String) : String :=
  (pySplit ((pySplit ((pySplit href "editor/").getD 1 "") "/").getD 0 "") "?").getD 0 ""

/-! ## Browser-session events and the session invariant

Every `webdriver.Safari()` call emits `sessionOpen`; every
`driver.quit()` emits `sessionClose`.  A run's trace records these in
order. -/

/-- Browser session lifecycle events. -/
inductive Ev
  | sessionOpen
  | sessionClose
deriving DecidableEq, Repr

/-- Scanning `t` by `sessOk openNow t` from a state with `openNow` sessions
open (`true` = one open), no open happens while a session is open, no
close happens while none is open, and the trace ends with everything
closed. -/
def sessOk : Bool → List Ev → Bool
  | openNow, [] => !openNow
  | openNow, .sessionOpen :: t => !openNow && sessOk true t
  | openNow, .sessionClose :: t => openNow && sessOk false t

/-- Full session invariant: at most one session at a time and all closed
at process exit. -/
def sessionInvariant (t : List Ev) : Bool := sessOk false t

/-- Like `sessOk` but without requiring the trace to end closed: only
"at most one session open at a time" (and no stray close). -/
def noConcurrent : Bool → List Ev → Bool
  | _, [] => true
  | openNow, .sessionOpen :: t => !openNow && noConcurrent true t
  | openNow, .sessionClose :: t => openNow && noConcurrent false t

/-- At most one session open at any point of the trace. -/
def atMostOneOpen (t : List Ev) : Bool := noConcurrent false t

/-! ## The environment of one deployment run

`deploy_driver(driver_url, driver_code_path)` interacts with the file
system and the browser.  `FileState` models the file-system side;
`PageEnv` records what the browser/page would answer at each interaction
point of the function, including which steps raise an exception. -/

/-- State of the driver-code file at `driver_code_path`. -/
structure FileState where
  fileExists : Bool
  contents : String

/-- Outcome of the bounded `WebDriverWait` for the editor element
(lines 80-85): found in time, timed out (`TimeoutException`), or raised
some other exception. -/
inductive WaitResult
  | found
  | timedOut
  | raised
deriving DecidableEq, Repr

/-- Outcome of the code-injection `execute_script` (lines 89-117):
raised, or returned `None`, or returned a dict whose `success` entry is
as recorded. -/
inductive JsOutcome
  | raised
  | retNone
  | ret (success : Bool)
deriving DecidableEq, Repr

/-- Everything the browser side answers during one `deploy_driver` run. -/
structure PageEnv where
  /-- whether `webdriver.Safari()` succeeds (line 59). -/
  safariOk : Bool
  /-- whether `driver.get(driver_url)` raises (line 66). -/
  navRaises : Bool
  /-- a password field is present (line 70); best-effort wait only, no
  effect on the outcome. -/
  passwordPresent : Bool
  /-- outcome of the editor wait (lines 80-85). -/
  editorWait : WaitResult
  /-- outcome of the injection script (lines 89-123). -/
  jsOutcome : JsOutcome
  /-- candidate elements each locator expression matches (line 141). -/
  domMatches : Selector → List Btn
  /-- the `scrollIntoView` script raises (line 156). -/
  scrollRaises : Bool
  /-- the native `save_btn.click()` succeeds (line 160). -/
  nativeClickOk : Bool
  /-- the fallback scripted click raises (line 163). -/
  jsClickRaises : Bool
  /-- reading the warning banners raises (lines 189-193, `except: pass`). -/
  bannersRaise : Bool
  /-- the visible warning-banner elements (line 189). -/
  banners : List Banner
  /-- reading the body text raises (lines 196-206, `except: pass`). -/
  bodyRaises : Bool
  /-- the body element's visible text (line 197). -/
  bodyText : String

/-- The body of the `try` block of lines 64-215, as run after a session
was opened: `Except.error` is an exception escaping to the top-level
handler (lines 217-219), `Except.ok` a `return`ed value. -/
def deployBody (pg : PageEnv) : Except Unit Bool :=
  if pg.navRaises then .error () else
  match pg.editorWait with
  | .timedOut => .ok false
  | .raised => .error ()
  | .found =>
    match pg.jsOutcome with
    | .raised => .error ()
    | .retNone => .ok false
    | .ret ok =>
      if !ok then .ok false else
      match findSaveButton (selectors.map pg.domMatches) with
      | none => .ok false
      | some _ =>
        if pg.scrollRaises then .ok false
        else if !pg.nativeClickOk && pg.jsClickRaises then .ok false
        else
          .ok (((if pg.bannersRaise then [] else bannerDiags pg.banners) ++
                (if pg.bodyRaises then [] else bodyScan pg.bodyText)).isEmpty)

/-- The whole of `deploy_driver`: boolean result and session trace.  The
file check precedes any browser interaction; a failed launch opens no
session; otherwise the `try/finally` guarantees exactly one
`sessionClose` after the body, whether it returned or raised. -/
def deployDriver (fs : FileState) (pg : PageEnv) : Bool × List Ev :=
  if !fs.fileExists then (false, [])
  else if !pg.safariOk then (false, [])
  else
    let r := match deployBody pg with
      | .ok b => b
      | .error _ => false
    (r, [Ev.sessionOpen, Ev.sessionClose])

/-! ## Auto-discovery preamble (lines 247-295)

Run only when the driver id is still the placeholder.  The whole block
is wrapped in `try/except` with the `driver.quit()` at the end of the
`try` suite — not in a `finally` — so an exception raised after the
launch skips the quit. -/

/-- A hyperlink element on the listing page. -/
structure LinkElem where
  text : String
  href : Option String
deriving DecidableEq, Repr

/-- Everything the browser side answers during the auto-discovery
block. -/
structure DiscEnv where
  /-- whether `webdriver.Safari()` succeeds (line 250). -/
  safariOk : Bool
  /-- whether `driver.get(list_url)` raises (line 254). -/
  navRaises : Bool
  /-- outcome of the `WebDriverWait` for the partial link text
  (line 263). -/
  waitLink : WaitResult
  /-- the `find_element` call after a successful wait raises (line 264). -/
  findRaises : Bool
  /-- the element found by partial link text (line 264). -/
  directLink : LinkElem
  /-- the fallback `find_elements(By.TAG_NAME, "a")` raises (line 268;
  inner `except: pass`, so this does not leak). -/
  fallbackRaises : Bool
  /-- all anchor elements, for the fallback scan (line 268). -/
  allLinks : List LinkElem

/-- Hard-coded configuration of lines 16-21. -/
def PLACEHOLDER : String := "REPLACE_WITH_DRIVER_ID"

/-- Default hub address (line 19). -/
def HUB_IP : String := "192.168.2.19"

/-- The driver name searched for in the listing (line 21). -/
def DRIVER_NAME : String := "Nuvo Essentia"

/-- The link-location logic of lines 260-274: direct partial-link-text
wait, falling back on timeout to a case-insensitive substring scan of
all anchors.  `Except.error` is an exception escaping to the outer
handler of line 292 (skipping `driver.quit()`). -/
def discoverLink (env : DiscEnv) : Except Unit (Option LinkElem) :=
  match env.waitLink with
  | .raised => .error ()
  | .found =>
    if env.findRaises then .error ()
    else .ok (some env.directLink)
  | .timedOut =>
    if env.fallbackRaises then .ok none
    else .ok (env.allLinks.find? fun l =>
      pyIn (pyLower DRIVER_NAME) (pyLower l.text))

/-- The whole auto-discovery block (lines 249-295): returns the possibly
updated driver id and the session trace.  On the non-exception paths the
`driver.quit()` of line 291 closes the session; on an exception after
launch the outer `except` of line 292 is entered with the session still
open. -/
def discovery (env : DiscEnv) (driverId : String) : String × List Ev :=
  if !env.safariOk then (driverId, [])
  else if env.navRaises then (driverId, [Ev.sessionOpen])
  else
    match discoverLink env with
    | .error _ => (driverId, [Ev.sessionOpen])
    | .ok none => (driverId, [Ev.sessionOpen, Ev.sessionClose])
    | .ok (some link) =>
      let id :=
        match link.href with
        | none => driverId
        | some h => if pyIn "editor/" h then extractDriverId h else driverId
      (id, [Ev.sessionOpen, Ev.sessionClose])

/-- The resolved driver id after argument parsing and (if still the
placeholder) auto-discovery. -/
def resolvedId (argv : List String) (denv : DiscEnv) : String :=
  let st := parseArgs argv (PLACEHOLDER, HUB_IP)
  if st.1 = PLACEHOLDER then (discovery denv st.1).1 else st.1

/-- The `__main__` block (lines 223-311): argument parsing, optional
auto-discovery, `sys.exit(1)` when the id is still unresolved, otherwise
a deployment run whose boolean result is discarded and an implicit exit
status of `0`.  Returns the exit status and the combined session
trace. -/
def mainRun (argv : List String) (denv : DiscEnv) (fs : FileState)
    (pg : PageEnv) : Nat × List Ev :=
  let st := parseArgs argv (PLACEHOLDER, HUB_IP)
  let disc := if st.1 = PLACEHOLDER then discovery denv st.1 else (st.1, [])
  if disc.1 = PLACEHOLDER then (1, disc.2)
  else (0, disc.2 ++ (deployDriver fs pg).2)

/-! ## Concrete sample environments used in witnesses and
counterexamples -/

/-- A present driver-code file. -/
def fsSample : FileState := ⟨true, "metadata"⟩

/-- A benign page environment: everything succeeds, a Save button is
found, no banners, clean body text. -/
def pgSample : PageEnv where
  safariOk := true
  navRaises := false
  passwordPresent := false
  editorWait := .found
  jsOutcome := .ret true
  domMatches := fun _ => [⟨true, true, "Save"⟩]
  scrollRaises := false
  nativeClickOk := true
  jsClickRaises := false
  bannersRaise := false
  banners := []
  bodyRaises := false
  bodyText := "No errors."

/-- A discovery environment whose navigation raises after the session
launch: the outer handler of line 292 catches it and `driver.quit()` of
line 291 is skipped. -/
def denvBad : DiscEnv where
  safariOk := true
  navRaises := true
  waitLink := .timedOut
  findRaises := false
  directLink := ⟨"", none⟩
  fallbackRaises := false
  allLinks := []

/-- A discovery environment with no exception after launch (the wait
times out, the fallback scan finds nothing). -/
def denvGood : DiscEnv where
  safariOk := true
  navRaises := false
  waitLink := .timedOut
  findRaises := false
  directLink := ⟨"", none⟩
  fallbackRaises := false
  allLinks := []

/-! ## Lemmas about the string primitives -/

theorem pySplitCore_fuel_irrel (c : Char) (cs : List Char) :
    ∀ (n m : Nat) (s : List Char), s.length ≤ n → s.length ≤ m →
      pySplitCore c cs n s = pySplitCore c cs m s := by
  intro n
  induction n with
  | zero =>
    intro m s hn _
    have hs : s = [] := List.eq_nil_of_length_eq_zero (Nat.le_zero.mp hn)
    subst hs
    cases m <;> rfl
  | succ n ih =>
    intro m s hn hm
    cases s with
    | nil => cases m <;> rfl
    | cons d s' =>
      cases m with
      | zero => simp at hm
      | succ m' =>
        have h1 : s'.length ≤ n := by simpa using hn
        have h2 : s'.length ≤ m' := by simpa using hm
        simp only [pySplitCore]
        cases hp : (c :: cs).isPrefixOf (d :: s') with
        | true =>
          simp only [hp, if_true]
          have hd : (List.drop cs.length s').length ≤ n := by
            simp only [List.length_drop]; omega
          have hd2 : (List.drop cs.length s').length ≤ m' := by
            simp only [List.length_drop]; omega
          rw [ih _ _ hd hd2]
        | false =>
          simp only [hp, Bool.false_eq_true, if_false]
          rw [ih m' s' h1 h2]

theorem pySplitCore_ne_nil (c : Char) (cs : List Char) :
    ∀ (n : Nat) (s : List Char), pySplitCore c cs n s ≠ [] := by
  intro n s
  match n, s with
  | _, [] => simp [pySplitCore]
  | 0, _ :: _ => simp [pySplitCore]
  | n + 1, d :: s =>
    simp only [pySplitCore]
    cases hp : (c :: cs).isPrefixOf (d :: s) <;> simp [hp]

theorem contains_of_isPrefixOf {sub l : List Char} (h : sub.isPrefixOf l = true) :
    listContains sub l = true := by
  cases l with
  | nil =>
    cases sub with
    | nil => rfl
    | cons a as => simp [List.isPrefixOf] at h
  | cons d t => simp [listContains, h]

theorem listContains_of_startsWith {sub l : List Char} (h : sub <+: l) :
    listContains sub l = true :=
  contains_of_isPrefixOf ( List.isPrefixOf_iff_prefix.mpr h)

theorem listContains_mono {sub1 sub2 s : List Char} (hp : sub1 <+: sub2)
    (h : listContains sub2 s = true) : listContains sub1 s = true := by
  induction s with
  | nil =>
    simp only [listContains, List.isEmpty_iff] at h ⊢
    subst h
    exact List.prefix_nil.mp hp
  | cons d t ih =>
    simp only [listContains, Bool.or_eq_true] at h ⊢
    cases h with
    | inl h =>
      exact Or.inl ( List.isPrefixOf_iff_prefix.mpr
        (hp.trans ( List.isPrefixOf_iff_prefix.mp h)))
    | inr h => exact Or.inr (ih h)

theorem listContains_cons_false {sub : List Char} {d : Char} {s : List Char}
    (h : listContains sub (d :: s) = false) : listContains sub s = false := by
  simp only [listContains, Bool.or_eq_false_iff] at h
  exact h.2

theorem isPrefixOf_cons_false {sub : List Char} {d : Char} {s : List Char}
    (h : listContains sub (d :: s) = false) : sub.isPrefixOf (d :: s) = false := by
  simp only [listContains, Bool.or_eq_false_iff] at h
  exact h.1

theorem pySplitCore_no_occ (c : Char) (cs : List Char) :
    ∀ (n : Nat) (s : List Char), s.length ≤ n →
      listContains (c :: cs) s = false → pySplitCore c cs n s = [s] := by
  intro n
  induction n with
  | zero =>
    intro s hn _
    have hs : s = [] := List.eq_nil_of_length_eq_zero (Nat.le_zero.mp hn)
    subst hs; rfl
  | succ n ih =>
    intro s hn h
    cases s with
    | nil => rfl
    | cons d s' =>
      simp only [pySplitCore, isPrefixOf_cons_false h, if_false]
      rw [ih s' (by simpa using hn) (listContains_cons_false h)]
      rfl

/-- Splitting a string with no separator occurrence yields one chunk. -/
theorem pySplitL_no_occ {c : Char} {cs s : List Char}
    (h : listContains (c :: cs) s = false) : pySplitL c cs s = [s] :=
  pySplitCore_no_occ c cs s.length s le_rfl h

theorem isPrefixAppendLeft {α : Type _} {l p q : List α} (h : p <+: q) :
    l ++ p <+: l ++ q := by
  obtain ⟨t, ht⟩ := h
  exact ⟨t, by rw [← ht, List.append_assoc]⟩

theorem isPrefixOf_false_of_straddle (c x : Char) (cs a b : List Char)
    (h : listContains (c :: cs) ((x :: a) ++ (c :: cs).dropLast) = false) :
    (c :: cs).isPrefixOf ((x :: a) ++ ((c :: cs) ++ b)) = false := by
  by_contra hp
  simp only [Bool.not_eq_false] at hp
  have hpre : (c :: cs) <+: (x :: a) ++ ((c :: cs) ++ b) :=
    List.isPrefixOf_iff_prefix.mp hp
  have h2 : (x :: a) ++ (c :: cs).dropLast <+: (x :: a) ++ ((c :: cs) ++ b) :=
    isPrefixAppendLeft (( List.dropLast_prefix _).trans (List.prefix_append _ _))
  have hlen : (c :: cs).length ≤ ((x :: a) ++ (c :: cs).dropLast).length := by
    simp [List.length_dropLast]
  have hfin := listContains_of_startsWith (List.prefix_of_prefix_length_le hpre h2 hlen)
  rw [h] at hfin
  cases hfin

/-- Splitting a string whose first separator occurrence is exactly after
`a`: the first chunk is `a` and splitting continues after the
separator. -/
theorem pySplitL_append_sep (c : Char) (cs : List Char) :
    ∀ (a b : List Char),
      listContains (c :: cs) (a ++ (c :: cs).dropLast) = false →
      pySplitL c cs (a ++ ((c :: cs) ++ b)) = a :: pySplitL c cs b := by
  intro a
  induction a with
  | nil =>
    intro b _
    have hp : (c :: cs).isPrefixOf (c :: (cs ++ b)) = true :=
      List.isPrefixOf_iff_prefix.mpr
        (by simp)
    simp only [pySplitL, List.nil_append, List.cons_append, List.length_cons]
    simp only [pySplitCore, hp, if_true]
    rw [List.drop_left]
    rw [pySplitCore_fuel_irrel c cs (cs ++ b).length b.length b
      (by simp) le_rfl]
  | cons x a' ih =>
    intro b h
    have hstrad := isPrefixOf_false_of_straddle c x cs a' b h
    have htail : listContains (c :: cs) (a' ++ (c :: cs).dropLast) = false := by
      refine listContains_cons_false (d := x) ?_
      simpa using h
    simp only [pySplitL, List.cons_append, List.length_cons]
    simp only [List.cons_append] at hstrad
    simp only [pySplitCore, hstrad, Bool.false_eq_true, if_false]
    have ih' := ih b htail
    simp only [pySplitL, List.cons_append] at ih'
    rw [ih']
    rfl

/-- For a single-character pattern, occurrence is just membership. -/
theorem listContains_singleton {d : Char} :
    ∀ {l : List Char}, listContains [d] l = true ↔ d ∈ l := by
  intro l
  induction l with
  | nil => simp [listContains]
  | cons x t ih =>
    simp only [listContains, List.isPrefixOf, Bool.or_eq_true, Bool.and_eq_true,
      List.mem_cons]
    constructor
    · rintro (⟨h1, _⟩ | h2)
      · exact Or.inl (beq_iff_eq.mp h1)
      · exact Or.inr (ih.mp h2)
    · rintro (h1 | h2)
      · exact Or.inl ⟨beq_iff_eq.mpr h1, by simp [List.isPrefixOf]⟩
      · exact Or.inr (ih.mpr h2)

/-- Negated form of `listContains_singleton`. -/
theorem listContains_singleton_false {d : Char} {l : List Char}
    (h : d ∉ l) : listContains [d] l = false := by
  cases hc : listContains [d] l with
  | false => rfl
  | true => exact absurd (listContains_singleton.mp hc) h

/-- The head chunk of a single-character split is the longest prefix free
of the separator. -/
theorem pySplitCore_head_takeWhile (d : Char) :
    ∀ (n : Nat) (s : List Char), s.length ≤ n →
      (pySplitCore d [] n s).headD [] = s.takeWhile (fun y => !(y == d)) := by
  intro n
  induction n with
  | zero =>
    intro s hn
    have hs : s = [] := List.eq_nil_of_length_eq_zero (Nat.le_zero.mp hn)
    subst hs; rfl
  | succ n ih =>
    intro s hn
    cases s with
    | nil => rfl
    | cons x s' =>
      have hps : [d].isPrefixOf (x :: s') = (d == x) := by
        simp [List.isPrefixOf]
      cases hx : (d == x) with
      | true =>
        have hxd : x = d := (beq_iff_eq.mp hx).symm
        subst hxd
        simp [pySplitCore, List.isPrefixOf, List.takeWhile_cons]
      | false =>
        have hxd : (x == d) = false := by
          cases hq : x == d with
          | false => rfl
          | true =>
            rw [beq_iff_eq.mpr (beq_iff_eq.mp hq).symm] at hx
            cases hx
        simp only [pySplitCore, hps, hx, Bool.false_eq_true, if_false,
          List.headD_cons, List.takeWhile_cons, hxd, Bool.not_false, if_true]
        rw [ih s' (by simpa using hn)]

/-- Prefixes survive `takeWhile` when all their elements satisfy the
predicate. -/
theorem prefix_takeWhile {p : Char → Bool} :
    ∀ {sub t : List Char}, sub <+: t → (∀ y ∈ sub, p y = true) →
      sub <+: t.takeWhile p := by
  intro sub
  induction sub with
  | nil => intro t _ _; exact List.nil_prefix
  | cons y sub' ih =>
    intro t hpre hall
    obtain ⟨r, hr⟩ := hpre
    subst hr
    simp only [List.cons_append, List.takeWhile_cons,
      hall y (by simp), if_true]
    exact List.cons_prefix_cons.mpr
      ⟨rfl, ih ⟨r, rfl⟩ (fun z hz => hall z (by simp [hz]))⟩

theorem takeWhile_append_of_all {p : Char → Bool} :
    ∀ {a s : List Char}, (∀ y ∈ a, p y = true) →
      (a ++ s).takeWhile p = a ++ s.takeWhile p := by
  intro a
  induction a with
  | nil => intro s _; rfl
  | cons y a' ih =>
    intro s hall
    simp only [List.cons_append, List.takeWhile_cons, hall y (by simp), if_true]
    rw [ih (fun z hz => hall z (by simp [hz]))]

theorem cons_headD_tail {α : Type _} {r : List (List α)} (h : r ≠ []) :
    r.headD [] :: r.tail = r := by
  cases r with
  | nil => exact absurd rfl h
  | cons a t => rfl

/-- If a pattern free of the separator character occurs in a string, it
occurs inside one of the chunks of the single-character split. -/
theorem exists_chunk_of_contains (d : Char) {sub : List Char} (hd : d ∉ sub) :
    ∀ (n : Nat) (s : List Char), s.length ≤ n → listContains sub s = true →
      ∃ l ∈ pySplitCore d [] n s, listContains sub l = true := by
  intro n
  induction n with
  | zero =>
    intro s hn h
    have hs : s = [] := List.eq_nil_of_length_eq_zero (Nat.le_zero.mp hn)
    subst hs
    exact ⟨[], by simp [pySplitCore], h⟩
  | succ n ih =>
    intro s hn h
    cases s with
    | nil => exact ⟨[], by simp [pySplitCore], h⟩
    | cons x s' =>
      have hps : [d].isPrefixOf (x :: s') = (d == x) := by
        simp [List.isPrefixOf]
      have hlen : s'.length ≤ n := by simpa using hn
      simp only [listContains, Bool.or_eq_true] at h
      cases hx : (d == x) with
      | true =>
        have hxd : x = d := (beq_iff_eq.mp hx).symm
        simp only [pySplitCore, hps, hx, if_true]
        cases h with
        | inl hpre =>
          cases sub with
          | nil => exact ⟨[], by simp, rfl⟩
          | cons y ys =>
            have : y = x :=
              (List.cons_prefix_cons.mp ( List.isPrefixOf_iff_prefix.mp hpre)).1
            rw [this, hxd] at hd
            exact absurd (by simp) hd
        | inr hc =>
          obtain ⟨l, hl, hcl⟩ := ih s' hlen hc
          exact ⟨l, List.mem_cons_of_mem _ (by simpa using hl), hcl⟩
      | false =>
        simp only [pySplitCore, hps, hx, Bool.false_eq_true, if_false]
        cases h with
        | inl hpre =>
          refine ⟨x :: (pySplitCore d [] n s').headD [], List.mem_cons_self _ _, ?_⟩
          rw [pySplitCore_head_takeWhile d n s' hlen]
          apply listContains_of_startsWith
          cases sub with
          | nil => exact List.nil_prefix
          | cons y ys =>
            obtain ⟨hy, hys⟩ :=
              List.cons_prefix_cons.mp ( List.isPrefixOf_iff_prefix.mp hpre)
            refine List.cons_prefix_cons.mpr ⟨hy, prefix_takeWhile hys ?_⟩
            intro z hz
            have hzd : z ≠ d := by
              intro hc2
              exact hd (by simp [← hc2, hz])
            simp [hzd]
        | inr hc =>
          obtain ⟨l, hl, hcl⟩ := ih s' hlen hc
          rw [← cons_headD_tail (pySplitCore_ne_nil d [] n s')] at hl
          cases List.mem_cons.mp hl with
          | inl hhead =>
            refine ⟨x :: (pySplitCore d [] n s').headD [],
              List.mem_cons_self _ _, ?_⟩
            rw [← hhead]
            simp [listContains, hcl]
          | inr htail =>
            exact ⟨l, List.mem_cons_of_mem _ htail, hcl⟩

/-! ## Claim C4 and C10: command-line argument classification -/

/-- Claim C4: command-line argument classification.  For argument list
`["42"]` the resource identifier becomes `"42"` and the hub address is
unchanged; for `["192.168.1.5"]` the hub address becomes `"192.168.1.5"`
and the identifier is unchanged; for `["7","10.0.0.2"]` the identifier
becomes `"7"` and the address `"10.0.0.2"`; in general an all-digit
token sets the identifier, a token containing `"."` sets the address,
and at most the first two arguments are consulted, in order. -/
theorem claim_C4 :
    (∀ tok st, pyIsdigit tok = true → classifyArg tok st = (tok, st.2)) ∧
    (∀ tok st, pyIsdigit tok = false → pyIn "." tok = true →
      classifyArg tok st = (st.1, tok)) ∧
    (∀ a b rest st,
      parseArgs (a :: b :: rest) st = classifyArg b (classifyArg a st)) ∧
    (∀ st, parseArgs ["42"] st = ("42", st.2)) ∧
    (∀ st, parseArgs ["192.168.1.5"] st = (st.1, "192.168.1.5")) ∧
    (∀ st, parseArgs ["7", "10.0.0.2"] st = ("7", "10.0.0.2")) := by
  refine ⟨?_, ?_, ?_, ?_, ?_, ?_⟩
  · intro tok st h
    simp [classifyArg, h]
  · intro tok st h1 h2
    simp [classifyArg, h1, h2]
  · intro a b rest st
    rfl
  · intro st
    show classifyArg "42" st = ("42", st.2)
    simp [classifyArg, show pyIsdigit "42" = true from by decide]
  · intro st
    show classifyArg "192.168.1.5" st = (st.1, "192.168.1.5")
    simp [classifyArg, show pyIsdigit "192.168.1.5" = false from by decide,
      show pyIn "." "192.168.1.5" = true from by decide]
  · intro st
    show classifyArg "10.0.0.2" (classifyArg "7" st) = ("7", "10.0.0.2")
    simp [classifyArg, show pyIsdigit "7" = true from by decide,
      show pyIsdigit "10.0.0.2" = false from by decide,
      show pyIn "." "10.0.0.2" = true from by decide]

/-- Witness for C4 at concrete inputs. -/
theorem claim_C4_witness :
    classifyArg "42" (PLACEHOLDER, HUB_IP) = ("42", HUB_IP) ∧
    classifyArg "192.168.1.5" (PLACEHOLDER, HUB_IP) =
      (PLACEHOLDER, "192.168.1.5") ∧
    parseArgs ["7", "10.0.0.2"] (PLACEHOLDER, HUB_IP) = ("7", "10.0.0.2") :=
  ⟨claim_C4.1 "42" (PLACEHOLDER, HUB_IP) (by decide),
   claim_C4.2.1 "192.168.1.5" (PLACEHOLDER, HUB_IP) (by decide) (by decide),
   claim_C4.2.2.2.2.2 (PLACEHOLDER, HUB_IP)⟩

/-- Claim C10 (implicit): a command-line token that is neither all
digits nor contains a `"."` (for example `"abc"`) is silently ignored —
both the resource identifier and the hub address keep their previous
values — and this holds independently for each of the two consulted
argument positions. -/
theorem claim_C10 :
    (∀ tok st, pyIsdigit tok = false → pyIn "." tok = false →
      classifyArg tok st = st) ∧
    (∀ st, parseArgs ["abc"] st = st) ∧
    (∀ a b st, pyIsdigit a = false → pyIn "." a = false →
      parseArgs [a, b] st = classifyArg b st) ∧
    (∀ a b st, pyIsdigit b = false → pyIn "." b = false →
      parseArgs [a, b] st = classifyArg a st) := by
  have h1 : ∀ tok st, pyIsdigit tok = false → pyIn "." tok = false →
      classifyArg tok st = st := by
    intro tok st ha hb
    simp [classifyArg, ha, hb]
  refine ⟨h1, ?_, ?_, ?_⟩
  · intro st
    exact h1 "abc" st (by decide) (by decide)
  · intro a b st ha hb
    show classifyArg b (classifyArg a st) = classifyArg b st
    rw [h1 a st ha hb]
  · intro a b st ha hb
    show classifyArg b (classifyArg a st) = classifyArg a st
    rw [h1 b (classifyArg a st) ha hb]

/-- Witness for C10 at concrete inputs. -/
theorem claim_C10_witness :
    classifyArg "abc" (PLACEHOLDER, HUB_IP) = (PLACEHOLDER, HUB_IP) ∧
    parseArgs ["abc", "42"] (PLACEHOLDER, HUB_IP) =
      classifyArg "42" (PLACEHOLDER, HUB_IP) ∧
    parseArgs ["42", "abc"] (PLACEHOLDER, HUB_IP) =
      classifyArg "42" (PLACEHOLDER, HUB_IP) :=
  ⟨claim_C10.1 "abc" (PLACEHOLDER, HUB_IP) (by decide) (by decide),
   claim_C10.2.2.1 "abc" "42" (PLACEHOLDER, HUB_IP) (by decide) (by decide),
   claim_C10.2.2.2 "42" "abc" (PLACEHOLDER, HUB_IP) (by decide) (by decide)⟩

/-! ## Claim C3: save-control selection -/

theorem find?_eq_head?_filter {α : Type _} (p : α → Bool) :
    ∀ l : List α, l.find? p = (l.filter p).head? := by
  intro l
  induction l with
  | nil => rfl
  | cons a t ih =>
    cases hp : p a with
    | true => simp [List.find?_cons_of_pos _ hp, List.filter_cons_of_pos hp]
    | false =>
      have hp' : ¬ p a := by simp [hp]
      rw [List.find?_cons_of_neg t hp', List.filter_cons_of_neg hp', ih]

theorem findSaveButton_eq_first_accepted (ms : List (List Btn)) :
    findSaveButton ms = (ms.flatten.filter acceptBtn).head? := by
  induction ms with
  | nil => rfl
  | cons g rest ih =>
    simp only [findSaveButton, List.flatten_cons, List.filter_append]
    rw [find?_eq_head?_filter]
    cases hfg : g.filter acceptBtn with
    | nil => simpa using ih
    | cons x t => simp

/-- Claim C3: save-control selection.  Iterating the ordered selector
list, every candidate element that is not displayed or not enabled is
skipped, every candidate whose lower-cased label contains `"delete"` or
`"cancel"` is skipped, and the first remaining match across the whole
ordered list is selected; in particular a visible `"Cancel"` button
before a visible `"Save"` button in the same expression is skipped in
favour of `"Save"`, and a `"Delete Driver"` button matching the generic
primary-button class is never selected. -/
theorem claim_C3 :
    (∀ ms : List (List Btn),
      findSaveButton ms = (ms.flatten.filter acceptBtn).head?) ∧
    (∀ (ms : List (List Btn)) (b : Btn), findSaveButton ms = some b →
      b.displayed = true ∧ b.enabled = true ∧
      pyIn "delete" (pyLower b.text) = false ∧
      pyIn "cancel" (pyLower b.text) = false) ∧
    (findSaveButton [[⟨true, true, "Cancel"⟩, ⟨true, true, "Save"⟩]] =
      some ⟨true, true, "Save"⟩) ∧
    (∀ ms : List (List Btn),
      findSaveButton ms ≠ some ⟨true, true, "Delete Driver"⟩) ∧
    (findSaveButton
        [[], [], [⟨true, true, "Delete Driver"⟩, ⟨true, true, "Save Driver"⟩],
         [], []] = some ⟨true, true, "Save Driver"⟩) := by
  have hsel : ∀ (ms : List (List Btn)) (b : Btn),
      findSaveButton ms = some b →
      b.displayed = true ∧ b.enabled = true ∧
      pyIn "delete" (pyLower b.text) = false ∧
      pyIn "cancel" (pyLower b.text) = false := by
    intro ms b h
    rw [findSaveButton_eq_first_accepted] at h
    obtain ⟨ys, hys⟩ := List.head?_eq_some_iff.mp h
    have hb : b ∈ ms.flatten.filter acceptBtn := by
      rw [hys]; simp
    have hacc : acceptBtn b = true := (List.mem_filter.mp hb).2
    simp only [acceptBtn, negativeLabel, Bool.and_eq_true, Bool.not_eq_true',
      Bool.or_eq_false_iff] at hacc
    exact ⟨hacc.1.1, hacc.1.2, hacc.2.1, hacc.2.2⟩
  refine ⟨findSaveButton_eq_first_accepted, hsel, by decide, ?_, by decide⟩
  intro ms hc
  have h := hsel ms _ hc
  have : pyIn "delete" (pyLower "Delete Driver") = true := by decide
  rw [h.2.2.1] at this
  cases this

/-- Witness for C3 at concrete inputs. -/
theorem claim_C3_witness :
    findSaveButton [[⟨false, true, "Save"⟩],
        [⟨true, true, "Cancel"⟩, ⟨true, true, "Update"⟩]] =
      some ⟨true, true, "Update"⟩ ∧
    (⟨true, true, "Update"⟩ : Btn).displayed = true ∧
    findSaveButton [[⟨true, true, "Delete Driver"⟩]] ≠
      some ⟨true, true, "Delete Driver"⟩ :=
  ⟨by decide,
   (claim_C3.2.1 [[⟨false, true, "Save"⟩],
      [⟨true, true, "Cancel"⟩, ⟨true, true, "Update"⟩]]
      ⟨true, true, "Update"⟩ (by decide)).1,
   claim_C3.2.2.2.1 [[⟨true, true, "Delete Driver"⟩]]⟩

/-! ## Claims C2 and C9: result verification -/

/-- Containment is monotone in string prefixes of the pattern. -/
theorem pyIn_of_pyIn_append {k tail s : String}
    (h : pyIn (k ++ tail) s = true) : pyIn k s = true := by
  have hpre : k.data <+: (k ++ tail).data := by
    rw [String.data_append]; exact List.prefix_append _ _
  exact listContains_mono hpre h

/-- A keyword line found anywhere in the text lies inside one of the
split lines. -/
theorem exists_line_of_pyIn {sub s : String} (hd : '\n' ∉ sub.data)
    (h : pyIn sub s = true) :
    ∃ line ∈ pySplit s "\n", pyIn sub line = true := by
  obtain ⟨l, hl, hcl⟩ :=
    exists_chunk_of_contains '\n' hd s.data.length s.data le_rfl h
  exact ⟨⟨l⟩, List.mem_map.mpr ⟨l, hl, rfl⟩, hcl⟩

/-- Membership in the body scan from the keyword branch conditions. -/
theorem mem_bodyScan {body k : String} (hk : k ∈ keywords)
    (hat : pyIn (k ++ " @") (pyLower body) = true) :
    ∀ line ∈ pySplit (pyLower body) "\n", pyIn k line = true →
      pyStrip line ∈ bodyScan body := by
  intro line hline hkline
  have hkin : pyIn k (pyLower body) = true := pyIn_of_pyIn_append hat
  refine List.mem_flatMap.mpr ⟨k, hk, ?_⟩
  simp only [hkin, hat, Bool.and_self, if_true]
  exact List.mem_map.mpr ⟨line, List.mem_filter.mpr ⟨hline, hkline⟩, rfl⟩

/-- Claim C9 (implicit): in the body-text scan, whenever the substring
"keyword followed by space-at" occurs anywhere in the lower-cased page
text, every line of that text containing the keyword is appended to the
diagnostic list — including lines that carry no at-marker at all; the
co-occurrence is tested over the whole page text, not per extracted
line. -/
theorem claim_C9 :
    ∀ (body k : String), k ∈ keywords →
      pyIn (k ++ " @") (pyLower body) = true →
      ∀ line ∈ pySplit (pyLower body) "\n", pyIn k line = true →
        pyStrip line ∈ bodyScan body :=
  fun _ _ hk hat line hline hkline => mem_bodyScan hk hat line hline hkline

/-- Witness for C9: the first line contains the keyword but no at-marker
and is still collected, because the co-occurrence holds elsewhere in the
text. -/
theorem claim_C9_witness :
    pyIn "expecting" "expecting x" = true ∧
    pyIn " @" "expecting x" = false ∧
    pyStrip "expecting x" ∈ bodyScan "expecting x\nexpecting @ foo\nok" :=
  ⟨by decide, by decide,
   claim_C9 "expecting x\nexpecting @ foo\nok" "expecting" (by decide)
     (by decide) "expecting x" (by decide) (by decide)⟩

/-- Claim C2: result verification returns overall success iff no visible
warning-banner text was collected and no error-keyword diagnostic lines
were found; in particular page text containing "syntax error at-marker
line 4" yields a non-empty diagnostic list and overall failure, and page
text containing none of the keywords yields success. -/
theorem claim_C2 :
    (∀ banners body, verifyResult banners body = true ↔
      bannerDiags banners = [] ∧ bodyScan body = []) ∧
    (∀ banners body, pyIn "syntax error @ line 4" (pyLower body) = true →
      bodyScan body ≠ [] ∧ verifyResult banners body = false) ∧
    (∀ body, (∀ k ∈ keywords, pyIn k (pyLower body) = false) →
      ∀ banners, bannerDiags banners = [] →
        verifyResult banners body = true) := by
  have hiff : ∀ banners body, verifyResult banners body = true ↔
      bannerDiags banners = [] ∧ bodyScan body = [] := by
    intro banners body
    simp [verifyResult, errorsFound, List.isEmpty_iff]
  refine ⟨hiff, ?_, ?_⟩
  · intro banners body h
    have hat : pyIn ("syntax error" ++ " @") (pyLower body) = true :=
      @pyIn_of_pyIn_append ("syntax error" ++ " @") " line 4" (pyLower body) h
    obtain ⟨line, hline, hkline⟩ :=
      @exists_line_of_pyIn "syntax error" (pyLower body) (by decide)
        (@pyIn_of_pyIn_append "syntax error" " @ line 4" (pyLower body) h)
    have hmem : pyStrip line ∈ bodyScan body :=
      mem_bodyScan (by decide) hat line hline hkline
    have hne : bodyScan body ≠ [] := List.ne_nil_of_mem hmem
    refine ⟨hne, ?_⟩
    cases hv : verifyResult banners body with
    | false => rfl
    | true => exact absurd ((hiff banners body).mp hv).2 hne
  · intro body hall banners hb
    have hscan : bodyScan body = [] := by
      refine List.flatMap_eq_nil_iff.mpr ?_
      intro k hk
      simp [hall k hk]
    exact (hiff banners body).mpr ⟨hb, hscan⟩

/-- Witness for C2 at concrete inputs. -/
theorem claim_C2_witness :
    bodyScan "ok\nsyntax error @ line 4" ≠ [] ∧
    verifyResult [] "ok\nsyntax error @ line 4" = false ∧
    verifyResult [] "all good here" = true :=
  ⟨(claim_C2.2.1 [] "ok\nsyntax error @ line 4" (by decide)).1,
   (claim_C2.2.1 [] "ok\nsyntax error @ line 4" (by decide)).2,
   claim_C2.2.2 "all good here" (by decide) [] rfl⟩

/-! ## Claim C5: identifier extraction from a discovered link -/

theorem map_mk_getD :
    ∀ (l : List (List Char)) (n : Nat),
      (l.map fun x => (⟨x⟩ : String)).getD n "" = ⟨l.getD n []⟩ := by
  intro l
  induction l with
  | nil => intro n; cases n <;> rfl
  | cons a t ih =>
    intro n
    cases n with
    | zero => rfl
    | succ m => rw [List.getD_cons_succ, List.map_cons, List.getD_cons_succ, ih m]

theorem getD_zero_eq_headD (l : List (List Char)) :
    l.getD 0 [] = l.headD [] := by
  cases l <;> rfl

theorem pySplit_editor (s : String) :
    pySplit s "editor/" =
      (pySplitL 'e' ['d', 'i', 't', 'o', 'r', '/'] s.data).map fun l =>
        (⟨l⟩ : String) := rfl

theorem pySplit_slash (s : String) :
    pySplit s "/" = (pySplitL '/' [] s.data).map fun l => (⟨l⟩ : String) := rfl

theorem pySplit_question (s : String) :
    pySplit s "?" = (pySplitL '?' [] s.data).map fun l => (⟨l⟩ : String) := rfl

theorem pySplitL_editor_append (a b : List Char)
    (h : listContains ("editor/".data) (a ++ "editor".data) = false) :
    pySplitL 'e' ['d', 'i', 't', 'o', 'r', '/'] (a ++ ("editor/".data ++ b)) =
      a :: pySplitL 'e' ['d', 'i', 't', 'o', 'r', '/'] b :=
  pySplitL_append_sep 'e' ['d', 'i', 't', 'o', 'r', '/'] a b h

theorem pySplitL_single_append (d : Char) (a b : List Char)
    (h : listContains [d] a = false) :
    pySplitL d [] (a ++ ([d] ++ b)) = a :: pySplitL d [] b := by
  have h' : listContains [d] (a ++ [d].dropLast) = false := by simpa using h
  exact pySplitL_append_sep d [] a b h'

theorem not_mem_of_contains_false {d : Char} {l : List Char}
    (h : listContains [d] l = false) : d ∉ l := by
  intro hm
  rw [listContains_singleton.mpr hm] at h
  cases h

/-- Claim C5: the identifier is the path segment immediately following
the editor-slash marker in the link's href, with any further path
segments and any trailing query string stripped; for a href ending in
editor-slash-123 with a query string the extracted identifier is
`"123"`. -/
theorem claim_C5 :
    extractDriverId "http://192.168.2.19/driver/editor/123?foo=bar" = "123" ∧
    (∀ pre ident tail : String,
      pyIn "editor/" (pre ++ "editor") = false →
      pyIn "editor/" (ident ++ tail) = false →
      pyIn "/" ident = false →
      pyIn "?" ident = false →
      (tail = "" ∨ tail.data.head? = some '/' ∨ tail.data.head? = some '?') →
      extractDriverId (pre ++ "editor/" ++ ident ++ tail) = ident) := by
  refine ⟨by decide, ?_⟩
  intro pre ident tail h1 h2 h3 h4 htail
  have h1' : listContains ("editor/".data) (pre.data ++ "editor".data) = false := by
    simpa [pyIn, String.data_append] using h1
  have h2' : listContains ('e' :: ['d', 'i', 't', 'o', 'r', '/'])
      (ident.data ++ tail.data) = false := by
    simpa [pyIn, String.data_append] using h2
  have h3' : listContains ['/'] ident.data = false := h3
  have h4' : listContains ['?'] ident.data = false := h4
  have hdata : (pre ++ "editor/" ++ ident ++ tail).data =
      pre.data ++ (("editor/".data) ++ (ident.data ++ tail.data)) := by
    simp [String.data_append]
  unfold extractDriverId
  rw [pySplit_editor, hdata, pySplitL_editor_append pre.data _ h1',
    pySplitL_no_occ h2', map_mk_getD]
  show (pySplit ((pySplit (⟨ident.data ++ tail.data⟩ : String) "/").getD 0 "")
    "?").getD 0 "" = ident
  rcases htail with hnil | hslash | hquest
  · subst hnil
    rw [show (⟨ident.data ++ ("" : String).data⟩ : String) = ident by
      simp]
    rw [pySplit_slash, pySplitL_no_occ h3', map_mk_getD]
    rw [show (⟨([ident.data] : List (List Char)).getD 0 []⟩ : String) = ident by
      simp]
    rw [pySplit_question, pySplitL_no_occ h4', map_mk_getD]
    simp
  · obtain ⟨R, hR⟩ : ∃ R, tail.data = '/' :: R := by
      cases ht : tail.data with
      | nil => rw [ht] at hslash; cases hslash
      | cons c R =>
        rw [ht] at hslash
        simp at hslash
        exact ⟨R, by rw [hslash]⟩
    rw [pySplit_slash]
    rw [show (⟨ident.data ++ tail.data⟩ : String).data =
      ident.data ++ (['/'] ++ R) by simp [hR]]
    rw [pySplitL_single_append '/' _ _ h3', map_mk_getD]
    rw [show (⟨((ident.data :: pySplitL '/' [] R).getD 0 [])⟩ : String) = ident by
      simp]
    rw [pySplit_question, pySplitL_no_occ h4', map_mk_getD]
    simp
  · obtain ⟨R, hR⟩ : ∃ R, tail.data = '?' :: R := by
      cases ht : tail.data with
      | nil => rw [ht] at hquest; cases hquest
      | cons c R =>
        rw [ht] at hquest
        simp at hquest
        exact ⟨R, by rw [hquest]⟩
    rw [pySplit_slash]
    rw [show (⟨ident.data ++ tail.data⟩ : String).data =
      (ident.data ++ ['?']) ++ R by simp [hR]]
    rw [map_mk_getD, getD_zero_eq_headD]
    have hhead : (pySplitL '/' [] ((ident.data ++ ['?']) ++ R)).headD [] =
        (ident.data ++ ['?']) ++ R.takeWhile (fun y => !(y == '/')) := by
      rw [show pySplitL '/' [] ((ident.data ++ ['?']) ++ R) =
        pySplitCore '/' [] ((ident.data ++ ['?']) ++ R).length
          ((ident.data ++ ['?']) ++ R) from rfl]
      rw [pySplitCore_head_takeWhile '/' _ _ le_rfl]
      refine takeWhile_append_of_all ?_
      intro y hy
      rcases List.mem_append.mp hy with hyi | hyq
      · have : y ≠ '/' := by
          intro hc
          exact not_mem_of_contains_false h3' (hc ▸ hyi)
        simp [this]
      · simp at hyq
        simp [hyq]
    rw [hhead]
    rw [show (⟨(ident.data ++ ['?']) ++ R.takeWhile (fun y => !(y == '/'))⟩ :
        String) = ⟨ident.data ++ (['?'] ++ R.takeWhile (fun y => !(y == '/')))⟩ by
      simp]
    rw [pySplit_question]
    rw [show (⟨ident.data ++ (['?'] ++ R.takeWhile (fun y => !(y == '/')))⟩ :
      String).data = ident.data ++ (['?'] ++ R.takeWhile (fun y => !(y == '/')))
      from rfl]
    rw [pySplitL_single_append '?' _ _ h4', map_mk_getD]
    simp

/-! ## Claim C5 witness -/

/-- Witness for C5 at a concrete href. -/
theorem claim_C5_witness :
    pyIn "editor/" ("http://10.0.0.7/driver/" ++ "editor") = false ∧
    extractDriverId ("http://10.0.0.7/driver/" ++ "editor/" ++ "9" ++ "?a=b")
      = "9" :=
  ⟨by decide,
   claim_C5.2 "http://10.0.0.7/driver/" "9" "?a=b" (by decide) (by decide)
     (by decide) (by decide) (Or.inr (Or.inr (by decide)))⟩

/-! ## Claims C7 and C8: file precondition and idempotence -/

/-- Claim C7: for every run in which the driver-code file does not
exist, `deploy_driver` reports failure (returns `False`) before any
browser session is opened — no browser interaction occurs on that
path. -/
theorem claim_C7 :
    ∀ (fs : FileState) (pg : PageEnv), fs.fileExists = false →
      (deployDriver fs pg).1 = false ∧ (deployDriver fs pg).2 = [] := by
  intro fs pg h
  simp [deployDriver, h]

/-- Witness for C7 at a concrete missing-file state. -/
theorem claim_C7_witness :
    (deployDriver ⟨false, "metadata"⟩ pgSample).1 = false ∧
    (deployDriver ⟨false, "metadata"⟩ pgSample).2 = [] :=
  claim_C7 ⟨false, "metadata"⟩ pgSample rfl

/-- Claim C8: two runs of `deploy_driver` with identical input-file
contents and an unchanged target page state (identical page responses)
produce the same boolean success/failure result. -/
theorem claim_C8 :
    ∀ (fs1 fs2 : FileState) (pg1 pg2 : PageEnv), fs1 = fs2 → pg1 = pg2 →
      (deployDriver fs1 pg1).1 = (deployDriver fs2 pg2).1 := by
  intro fs1 fs2 pg1 pg2 h1 h2
  rw [h1, h2]

/-- Witness for C8: two identical runs at the sample environment. -/
theorem claim_C8_witness :
    (deployDriver fsSample pgSample).1 = (deployDriver fsSample pgSample).1 :=
  claim_C8 fsSample fsSample pgSample pgSample rfl rfl

/-! ## Claim C6: process exit status -/

theorem mainRun_exit_eq (argv : List String) (denv : DiscEnv) (fs : FileState)
    (pg : PageEnv) :
    (mainRun argv denv fs pg).1 =
      if resolvedId argv denv = PLACEHOLDER then 1 else 0 := by
  unfold mainRun resolvedId
  by_cases h : (parseArgs argv (PLACEHOLDER, HUB_IP)).1 = PLACEHOLDER
  · simp only [h, if_true]
    by_cases h2 : (discovery denv PLACEHOLDER).1 = PLACEHOLDER
    · simp [h2]
    · simp [h2]
  · simp [h]

/-- Claim C6: the process exits with status 1 exactly when the resource
identifier is still unresolved after auto-discovery; in every other case
— including a failing deployment — the exit status is the implicit 0,
the deployment outcome being communicated only via console text and the
boolean result of `deploy_driver`. -/
theorem claim_C6 :
    (∀ argv denv fs pg, (mainRun argv denv fs pg).1 = 1 ↔
      resolvedId argv denv = PLACEHOLDER) ∧
    (∀ argv denv fs pg, (mainRun argv denv fs pg).1 = 0 ∨
      (mainRun argv denv fs pg).1 = 1) ∧
    (∀ argv denv fs1 pg1 fs2 pg2,
      (mainRun argv denv fs1 pg1).1 = (mainRun argv denv fs2 pg2).1) := by
  refine ⟨?_, ?_, ?_⟩
  · intro argv denv fs pg
    rw [mainRun_exit_eq]
    by_cases h : resolvedId argv denv = PLACEHOLDER <;> simp [h]
  · intro argv denv fs pg
    rw [mainRun_exit_eq]
    by_cases h : resolvedId argv denv = PLACEHOLDER <;> simp [h]
  · intro argv denv fs1 pg1 fs2 pg2
    rw [mainRun_exit_eq, mainRun_exit_eq]

/-! ## Claim C1: the session-release invariant (corrected) -/

theorem deployDriver_trace (fs : FileState) (pg : PageEnv) :
    (deployDriver fs pg).2 = [] ∨
    (deployDriver fs pg).2 = [Ev.sessionOpen, Ev.sessionClose] := by
  unfold deployDriver
  cases hfe : fs.fileExists <;> cases hso : pg.safariOk <;> simp [hfe, hso]

theorem discovery_trace (env : DiscEnv) (driverId : String) :
    (discovery env driverId).2 = [] ∨
    (discovery env driverId).2 = [Ev.sessionOpen, Ev.sessionClose] ∨
    ((discovery env driverId).2 = [Ev.sessionOpen] ∧
      (discovery env driverId).1 = driverId) := by
  unfold discovery
  cases hso : env.safariOk
  · left
    rfl
  · cases hnav : env.navRaises
    · simp only [Bool.not_true, Bool.false_eq_true, if_false, hnav]
      cases hdl : discoverLink env with
      | error e => exact Or.inr (Or.inr ⟨rfl, rfl⟩)
      | ok r =>
        cases r with
        | none => exact Or.inr (Or.inl rfl)
        | some link => exact Or.inr (Or.inl rfl)
    · simp only [Bool.not_true, Bool.false_eq_true, if_false, hnav, if_true]
      refine Or.inr (Or.inr ⟨?_, ?_⟩) <;> first | rfl | trivial

theorem discovery_trace_ok (env : DiscEnv) (r : Option LinkElem)
    (hnav : env.navRaises = false) (hdl : discoverLink env = .ok r)
    (driverId : String) :
    (discovery env driverId).2 = [] ∨
    (discovery env driverId).2 = [Ev.sessionOpen, Ev.sessionClose] := by
  unfold discovery
  cases hso : env.safariOk
  · left
    rfl
  · right
    simp only [Bool.not_true, Bool.false_eq_true, if_false, hnav]
    rw [hdl]
    cases r with
    | none => rfl
    | some link => rfl

theorem mainRun_trace_cases (argv : List String) (denv : DiscEnv)
    (fs : FileState) (pg : PageEnv) :
    (mainRun argv denv fs pg).2 = [] ∨
    (mainRun argv denv fs pg).2 = [Ev.sessionOpen] ∨
    (mainRun argv denv fs pg).2 = [Ev.sessionOpen, Ev.sessionClose] ∨
    (mainRun argv denv fs pg).2 =
      [Ev.sessionOpen, Ev.sessionClose, Ev.sessionOpen, Ev.sessionClose] := by
  unfold mainRun
  by_cases h : (parseArgs argv (PLACEHOLDER, HUB_IP)).1 = PLACEHOLDER
  · simp only [h, if_true]
    rcases discovery_trace denv PLACEHOLDER with ht | ht | hleak
    · by_cases h2 : (discovery denv PLACEHOLDER).1 = PLACEHOLDER
      · rw [if_pos h2]
        exact Or.inl ht
      · rw [if_neg h2]
        rcases deployDriver_trace fs pg with hd | hd
        · refine Or.inl ?_
          show (discovery denv PLACEHOLDER).2 ++ (deployDriver fs pg).2 = []
          rw [ht, hd]
          rfl
        · refine Or.inr (Or.inr (Or.inl ?_))
          show (discovery denv PLACEHOLDER).2 ++ (deployDriver fs pg).2 =
            [Ev.sessionOpen, Ev.sessionClose]
          rw [ht, hd]
          rfl
    · by_cases h2 : (discovery denv PLACEHOLDER).1 = PLACEHOLDER
      · rw [if_pos h2]
        exact Or.inr (Or.inr (Or.inl ht))
      · rw [if_neg h2]
        rcases deployDriver_trace fs pg with hd | hd
        · refine Or.inr (Or.inr (Or.inl ?_))
          show (discovery denv PLACEHOLDER).2 ++ (deployDriver fs pg).2 =
            [Ev.sessionOpen, Ev.sessionClose]
          rw [ht, hd]
          rfl
        · refine Or.inr (Or.inr (Or.inr ?_))
          show (discovery denv PLACEHOLDER).2 ++ (deployDriver fs pg).2 =
            [Ev.sessionOpen, Ev.sessionClose, Ev.sessionOpen, Ev.sessionClose]
          rw [ht, hd]
          rfl
    · rw [if_pos hleak.2]
      exact Or.inr (Or.inl hleak.1)
  · simp only [h, if_false]
    rcases deployDriver_trace fs pg with hd | hd
    · refine Or.inl ?_
      show ([] : List Ev) ++ (deployDriver fs pg).2 = []
      rw [hd]
      rfl
    · refine Or.inr (Or.inr (Or.inl ?_))
      show ([] : List Ev) ++ (deployDriver fs pg).2 =
        [Ev.sessionOpen, Ev.sessionClose]
      rw [hd]
      rfl


/-- Counterexample to C1 as stated: with an unset driver id and a
discovery run whose navigation raises after the browser launch, the
process exits (status 1) with the session trace containing an open and
no close — the auto-discovery block has no `finally`, so the
`driver.quit()` of line 291 is skipped on the exception path. -/
theorem claim_C1_counterexample :
    (mainRun [] denvBad fsSample pgSample).2 = [Ev.sessionOpen] ∧
    sessionInvariant (mainRun [] denvBad fsSample pgSample).2 = false := by
  decide

/-- Claim C1 as amended: at most one browser session is ever open at a
time (on every path of the whole program), and the main deployment
sequence closes its session on every exit path; the auto-discovery
preamble closes its session on every path on which no exception is
raised between the launch and the quit, but an exception there (for
example a failed navigation) leaves the session open at process exit. -/
theorem claim_C1_amended :
    (∀ fs pg, sessionInvariant (deployDriver fs pg).2 = true) ∧
    (∀ (env : DiscEnv) (driverId : String) (r : Option LinkElem),
      env.navRaises = false → discoverLink env = .ok r →
      sessionInvariant (discovery env driverId).2 = true) ∧
    (∀ argv denv fs pg, atMostOneOpen (mainRun argv denv fs pg).2 = true) := by
  refine ⟨?_, ?_, ?_⟩
  · intro fs pg
    rcases deployDriver_trace fs pg with h | h <;> rw [h] <;> decide
  · intro env driverId r hnav hdl
    rcases discovery_trace_ok env r hnav hdl driverId with h | h <;>
      rw [h] <;> decide
  · intro argv denv fs pg
    rcases mainRun_trace_cases argv denv fs pg with h | h | h | h <;>
      rw [h] <;> decide

/-- Witness for the amended C1: a leak-free discovery run and a normal
deployment run both satisfy the session invariant. -/
theorem claim_C1_witness :
    sessionInvariant (discovery denvGood PLACEHOLDER).2 = true ∧
    sessionInvariant (deployDriver fsSample pgSample).2 = true :=
  ⟨claim_C1_amended.2.1 denvGood PLACEHOLDER none rfl rfl,
   claim_C1_amended.1 fsSample pgSample⟩

end DeployDriver

